import Mathlib

/-!
Verification of the NASDAQ moving-average pipeline (`src/script.py`).

The pipeline reads a tabular NASDAQ feed, cleans it (typed timestamp, numeric
coercion with row exclusion), filters per ticker, computes a rolling mean of
the closing price, and assembles an HTML report.  This file gives a shallow
embedding of the pipeline in Lean and proves the specified properties of it.

Modelling conventions:
* pandas float columns are modelled exactly with `ℚ` (the spec talks about
  arithmetic means, and the clean feed carries plain decimal literals);
* a parsed timestamp is modelled as the `Nat` value of its 12-digit
  `YYYYMMDDHHMM` string (ordering of valid stamps agrees with chronology);
* fallible Python code (raised exceptions) is modelled with `Except`;
* `pd.DataFrame.sort_values(by='date')` uses the pandas default
  `kind='quicksort'`, i.e. numpy's introsort-based `argsort`, which is
  embedded operation by operation below (it is *not* a stable sort).
-/

namespace NasdaqScript

/-! ## Raw rows and typed records (`COLUMN_NAMES`, `read_nasdaq_data`) -/

/-- The predefined column names of the feed (`COLUMN_NAMES` in the script). -/
def COLUMN_NAMES : List String :=
  ["ticker", "per", "date", "open", "high", "low", "close", "vol"]

/-- One untyped row of the fetched tabular resource: the eight positional
string fields named by `COLUMN_NAMES`. -/
structure RawRow where
  ticker : String
  per : String
  date : String
  open_ : String
  high : String
  low : String
  close : String
  vol : String
deriving DecidableEq, Repr

/-- One cleaned, typed tick record (a row of the cleaned DataFrame). -/
structure TickRecord where
  ticker : String
  per : String
  /-- the parsed timestamp, as the value of its 12-digit `YYYYMMDDHHMM` text -/
  date : Nat
  open_ : ℚ
  high : ℚ
  low : ℚ
  close : ℚ
  vol : ℚ
deriving DecidableEq, Repr

/-- Numeric value of a list of decimal digit characters. -/
def digitsVal (cs : List Char) : Nat :=
  cs.foldl (fun a c => 10 * a + c.toNat - '0'.toNat) 0

/-- Day count of a Gregorian month, as used by datetime parsing. -/
def daysInMonth (y m : Nat) : Nat :=
  if m = 2 then
    if y % 4 = 0 ∧ (y % 100 ≠ 0 ∨ y % 400 = 0) then 29 else 28
  else if m = 4 ∨ m = 6 ∨ m = 9 ∨ m = 11 then 30
  else 31

/-- `pd.to_datetime(.., format='%Y%m%d%H%M')` on one cell: the text must be
exactly twelve digits `YYYYMMDDHHMM` denoting a valid Gregorian instant with
minute resolution; any other text raises (modelled as `none`). The parsed
instant is represented by the numeric value of the digit string, which is
monotone in chronological order. -/
def parseTimestamp (s : String) : Option Nat :=
  let cs := s.toList
  if cs.length = 12 ∧ cs.all Char.isDigit then
    let y := digitsVal (cs.take 4)
    let mo := digitsVal ((cs.drop 4).take 2)
    let d := digitsVal ((cs.drop 6).take 2)
    let h := digitsVal ((cs.drop 8).take 2)
    let mi := digitsVal ((cs.drop 10).take 2)
    if 1 ≤ mo ∧ mo ≤ 12 ∧ 1 ≤ d ∧ d ≤ daysInMonth y mo ∧ h ≤ 23 ∧ mi ≤ 59 then
      some (digitsVal cs)
    else none
  else none

/-- `pd.to_numeric(.., errors='coerce')` on one cell: parses an optionally
signed decimal literal (digits with at most one decimal point, at least one
digit), yielding `none` (pandas `NaN`) on anything else. -/
def toNumeric (s : String) : Option ℚ :=
  let cs := s.toList
  let signed : ℚ × List Char :=
    match cs with
    | '+' :: r => (1, r)
    | '-' :: r => (-1, r)
    | r => (1, r)
  let sign := signed.1
  let body := signed.2
  let ip := body.takeWhile Char.isDigit
  let rest := body.dropWhile Char.isDigit
  match rest with
  | [] =>
    if ip.isEmpty then none
    else some (sign * (digitsVal ip : ℚ))
  | '.' :: fp =>
    if fp.all Char.isDigit ∧ ¬(ip.isEmpty ∧ fp.isEmpty) then
      some (sign * ((digitsVal ip : ℚ) + (digitsVal fp : ℚ) / (10 : ℚ) ^ fp.length))
    else none
  | _ => none

/-- The exceptions that the cleaning phase of `read_nasdaq_data` can raise.
Numeric coercion uses `errors='coerce'` and therefore never raises; only the
timestamp conversion (`pd.to_datetime`) can fail, for the whole batch. -/
inductive CleanError where
  | timestampParseError
  | numericCoercionError
deriving DecidableEq, Repr

/-- The row-retention column of `df.dropna()` applied after coercion: build
the typed records from the per-column data, keeping exactly the rows whose
five coerced numeric cells are all defined. The seven column lists are
consumed in lockstep. -/
def dropnaBuild : List RawRow → List Nat → List (Option ℚ) → List (Option ℚ) →
    List (Option ℚ) → List (Option ℚ) → List (Option ℚ) → List TickRecord
  | r :: rs, d :: ds, some o :: os, some h :: hs, some l :: ls,
      some c :: cs, some v :: vs =>
    ⟨r.ticker, r.per, d, o, h, l, c, v⟩ :: dropnaBuild rs ds os hs ls cs vs
  | _ :: rs, _ :: ds, _ :: os, _ :: hs, _ :: ls, _ :: cs, _ :: vs =>
    dropnaBuild rs ds os hs ls cs vs
  | _, _, _, _, _, _, _ => []

/-- The cleaning phase of `read_nasdaq_data` (lines 42-50 of the script):
first `pd.to_datetime` converts the whole `date` column (raising on any bad
cell), then each numeric column is coerced with `pd.to_numeric(errors=
'coerce')`, and finally `df.dropna()` removes every row holding a `NaN`. -/
def cleanRows (rows : List RawRow) : Except CleanError (List TickRecord) :=
  let dates := rows.map (fun r => parseTimestamp r.date)
  if none ∈ dates then .error .timestampParseError
  else
    let dateVals := rows.map (fun r => (parseTimestamp r.date).getD 0)
    let opens := rows.map (fun r => toNumeric r.open_)
    let highs := rows.map (fun r => toNumeric r.high)
    let lows := rows.map (fun r => toNumeric r.low)
    let closes := rows.map (fun r => toNumeric r.close)
    let vols := rows.map (fun r => toNumeric r.vol)
    .ok (dropnaBuild rows dateVals opens highs lows closes vols)

/-- Row-level view of the cleaning decision: a raw row yields a typed record
exactly when its timestamp parses and all five numeric fields coerce. Used to
state that the columnwise clean-then-drop phase is atomic per row. -/
def rowToRecord (r : RawRow) : Option TickRecord :=
  match parseTimestamp r.date, toNumeric r.open_, toNumeric r.high,
      toNumeric r.low, toNumeric r.close, toNumeric r.vol with
  | some d, some o, some h, some l, some c, some v =>
    some ⟨r.ticker, r.per, d, o, h, l, c, v⟩
  | _, _, _, _, _, _ => none

/-! ## `df.sort_values(by='date')`

pandas `DataFrame.sort_values` defaults to `kind='quicksort'`, i.e. numpy's
introsort-based `argsort` (`npysort/quicksort.c.src`, `aquicksort_`): a
median-of-three quicksort on an index array, switching to insertion sort on
subranges of at most `SMALL_QUICKSORT + 1 = 16` elements and to heapsort
(`aheapsort_`) past the depth limit `2 * msb(n)`.  The embedding below
mirrors that routine operation by operation on an index list.  The C code's
hole-based element moves (saving a value in `vp`/`tmp` and writing it back at
the end of a shift) are rendered as the equivalent sequences of in-bounds
swaps, which produce the same final array.  Bounded `for`/`while` loops are
given explicit fuel exceeding their iteration counts. -/

/-- Threshold below which numpy's quicksort switches to insertion sort. -/
def SMALL_QUICKSORT : Nat := 15

/-- `npy_get_msb`: index of the most significant bit. -/
def npyGetMsb (n : Nat) : Nat := Nat.log2 n

/-- The sort key stored at position `i` of the index list `l`:
`v[l[i]]` in the C code. -/
def keyAt (keys l : List Nat) (i : Nat) : Nat := keys.getD (l.getD i 0) 0

/-- Exchange the entries of `l` at positions `i` and `j` (`INTP_SWAP`);
out-of-range positions leave the list unchanged (the C code only ever swaps
in bounds). -/
def swapL (l : List Nat) (i j : Nat) : List Nat :=
  if i < l.length ∧ j < l.length then (l.set i (l.getD j 0)).set j (l.getD i 0)
  else l

/-- `do ++pi; while (LT(v[*pi], vp));` — advance the left scan pointer. -/
def advanceUp (keys l : List Nat) (vp : Nat) : Nat → Nat → Nat
  | 0, pi => pi
  | fuel + 1, pi =>
    let p := pi + 1
    if keyAt keys l p < vp then advanceUp keys l vp fuel p else p

/-- `do --pj; while (LT(vp, v[*pj]));` — advance the right scan pointer. -/
def advanceDown (keys l : List Nat) (vp : Nat) : Nat → Nat → Nat
  | 0, pj => pj
  | fuel + 1, pj =>
    let p := pj - 1
    if vp < keyAt keys l p then advanceDown keys l vp fuel p else p

/-- The partition scan loop of `aquicksort_`: move the two pointers inward,
swapping out-of-place entries, until they cross; returns the final list and
the crossing position `pi`. -/
def scanLoop (keys : List Nat) (vp : Nat) :
    Nat → List Nat → Nat → Nat → List Nat × Nat
  | 0, l, pi, _ => (l, pi)
  | fuel + 1, l, pi, pj =>
    let n := l.length
    let pi1 := advanceUp keys l vp (n + 2) pi
    let pj1 := advanceDown keys l vp (n + 2) pj
    if pj1 ≤ pi1 then (l, pi1)
    else scanLoop keys vp fuel (swapL l pi1 pj1) pi1 pj1

/-- One quicksort partition of `tosort[pl..pr]`: median-of-three pivot
selection, pivot parked at `pr - 1`, scan loop, pivot swapped to the crossing
position; returns the new index list and the pivot position `pi`. -/
def partitionStep (keys l : List Nat) (pl pr : Nat) : List Nat × Nat :=
  let pm := pl + (pr - pl) / 2
  let l1 := if keyAt keys l pm < keyAt keys l pl then swapL l pm pl else l
  let l2 := if keyAt keys l1 pr < keyAt keys l1 pm then swapL l1 pr pm else l1
  let l3 := if keyAt keys l2 pm < keyAt keys l2 pl then swapL l2 pm pl else l2
  let vp := keyAt keys l3 pm
  let l4 := swapL l3 pm (pr - 1)
  let sc := scanLoop keys vp (l4.length + 2) l4 pl (pr - 1)
  (swapL sc.1 sc.2 (pr - 1), sc.2)

/-- Inner shift of the insertion sort: move the entry at `pj` left past
strictly greater keys (`while (pj > pl && LT(vp, v[*pk]))`). -/
def insInner (keys : List Nat) (pl : Nat) : Nat → List Nat → Nat → List Nat
  | 0, l, _ => l
  | fuel + 1, l, pj =>
    if pl < pj ∧ keyAt keys l pj < keyAt keys l (pj - 1) then
      insInner keys pl fuel (swapL l pj (pj - 1)) (pj - 1)
    else l

/-- The insertion sort of `aquicksort_` on `tosort[pl..pr]`
(`for (pi = pl + 1; pi <= pr; ++pi)` with the inner shift loop). -/
def insSortRange (keys : List Nat) (pl pr : Nat) : Nat → List Nat → Nat → List Nat
  | 0, l, _ => l
  | fuel + 1, l, pi =>
    if pi ≤ pr then
      insSortRange keys pl pr fuel (insInner keys pl (pi + 1) l pi) (pi + 1)
    else l

/-- Sift step of `aheapsort_` on the 1-based heap `a[1..n]` laid over
`tosort[pl..pl+n-1]`: push the entry at heap position `i` down below its
larger children (`j` is the current child index). -/
def siftLoop (keys : List Nat) (pl n : Nat) : Nat → List Nat → Nat → Nat → List Nat
  | 0, l, _, _ => l
  | fuel + 1, l, i, j =>
    if j ≤ n then
      let j1 := if j < n ∧ keyAt keys l (pl + j - 1) < keyAt keys l (pl + j) then j + 1 else j
      if keyAt keys l (pl + i - 1) < keyAt keys l (pl + j1 - 1) then
        siftLoop keys pl n fuel (swapL l (pl + i - 1) (pl + j1 - 1)) j1 (2 * j1)
      else l
    else l

/-- Heapify phase of `aheapsort_` (`for (l = n >> 1; l > 0; --l)`). -/
def heapifyLoop (keys : List Nat) (pl n : Nat) : Nat → List Nat → Nat → List Nat
  | 0, l, _ => l
  | fuel + 1, l, lv =>
    if 1 ≤ lv then
      heapifyLoop keys pl n fuel (siftLoop keys pl n (n + 2) l lv (2 * lv)) (lv - 1)
    else l

/-- Extraction phase of `aheapsort_`: repeatedly swap the heap root with the
last heap entry and sift the new root down the shrunk heap. -/
def extractLoop (keys : List Nat) (pl : Nat) : Nat → List Nat → Nat → List Nat
  | 0, l, _ => l
  | fuel + 1, l, m =>
    if 2 ≤ m then
      let l1 := swapL l (pl + m - 1) pl
      extractLoop keys pl fuel (siftLoop keys pl (m - 1) (m + 2) l1 1 2) (m - 1)
    else l

/-- `aheapsort_` on `tosort[pl..pr]`, the fallback of `aquicksort_` past the
recursion depth limit. -/
def heapSortRange (keys l : List Nat) (pl pr : Nat) : List Nat :=
  let n := pr - pl + 1
  extractLoop keys pl (n + 2) (heapifyLoop keys pl n (n + 2) l (n / 2)) n

/-- The driver loop of `aquicksort_`: partition ranges longer than
`SMALL_QUICKSORT + 1` entries (falling back to heapsort past the depth
limit), push the larger side on the explicit stack, insertion-sort short
ranges, and pop the stack until it is empty. -/
def qsLoop (keys : List Nat) :
    Nat → List Nat → Nat → Nat → Int → List (Nat × Nat) → List Nat
  | 0, l, _, _, _, _ => l
  | fuel + 1, l, pl, pr, depth, stack =>
    if SMALL_QUICKSORT < pr - pl then
      if depth < 0 then
        let l1 := heapSortRange keys l pl pr
        match stack with
        | [] => l1
        | (a, b) :: s => qsLoop keys fuel l1 a b (depth - 1) s
      else
        let pt := partitionStep keys l pl pr
        let l1 := pt.1
        let pi := pt.2
        if pi - pl < pr - pi then
          qsLoop keys fuel l1 pl (pi - 1) (depth - 1) ((pi + 1, pr) :: stack)
        else
          qsLoop keys fuel l1 (pi + 1) pr (depth - 1) ((pl, pi - 1) :: stack)
    else
      let l1 := insSortRange keys pl pr (pr + 2) l (pl + 1)
      match stack with
      | [] => l1
      | (a, b) :: s => qsLoop keys fuel l1 a b depth s

/-- numpy `argsort(kind='quicksort')` over the key list: run `aquicksort_`
on the index list `[0, .., n-1]`. -/
def aargsort (keys : List Nat) : List Nat :=
  let n := keys.length
  qsLoop keys (4 * n + 16) (List.range n) 0 (n - 1) (2 * (npyGetMsb n : Int)) []

/-- `df.sort_values(by='date')` (line 97 of the script): reorder the records
by the permutation that numpy's default quicksort `argsort` computes from the
`date` column. -/
def sortValuesByDate (recs : List TickRecord) : List TickRecord :=
  (aargsort (recs.map (·.date))).filterMap (fun i => recs[i]?)

/-! ### The sort permutes the records -/

theorem set_self : ∀ (l : List Nat) (i a : Nat), l[i]? = some a → l.set i a = l
  | [], i, a, h => by simp at h
  | x :: xs, 0, a, h => by
    simp only [List.getElem?_cons_zero, Option.some.injEq] at h
    simp [List.set, h]
  | x :: xs, i + 1, a, h => by
    simp only [List.getElem?_cons_succ] at h
    simp [List.set, set_self xs i a h]

theorem cons_set_perm : ∀ (xs : List Nat) (m x b : Nat), xs[m]? = some b →
    (b :: xs.set m x).Perm (x :: xs)
  | [], m, _, _, h => by simp at h
  | y :: ys, 0, x, b, h => by
    simp only [List.getElem?_cons_zero, Option.some.injEq] at h
    subst h
    exact List.Perm.swap x y ys
  | y :: ys, m + 1, x, b, h => by
    simp only [List.getElem?_cons_succ] at h
    show (b :: y :: ys.set m x).Perm (x :: y :: ys)
    exact (List.Perm.swap y b _).trans
      ((List.Perm.cons y (cons_set_perm ys m x b h)).trans (List.Perm.swap x y ys))

theorem set_set_perm : ∀ (l : List Nat) (i j a b : Nat), i ≠ j →
    l[i]? = some a → l[j]? = some b → ((l.set i b).set j a).Perm l
  | [], _, _, _, _, _, ha, _ => by simp at ha
  | x :: xs, 0, 0, _, _, hij, _, _ => absurd rfl hij
  | x :: xs, 0, j + 1, a, b, _, ha, hb => by
    simp only [List.getElem?_cons_zero, Option.some.injEq] at ha
    simp only [List.getElem?_cons_succ] at hb
    subst ha
    exact cons_set_perm xs j x b hb
  | x :: xs, i + 1, 0, a, b, _, ha, hb => by
    simp only [List.getElem?_cons_zero, Option.some.injEq] at hb
    simp only [List.getElem?_cons_succ] at ha
    subst hb
    exact cons_set_perm xs i x a ha
  | x :: xs, i + 1, j + 1, a, b, hij, ha, hb => by
    simp only [List.getElem?_cons_succ] at ha hb
    have hij' : i ≠ j := fun h => hij (by rw [h])
    exact List.Perm.cons x (set_set_perm xs i j a b hij' ha hb)

theorem swapL_perm (l : List Nat) (i j : Nat) : (swapL l i j).Perm l := by
  unfold swapL
  split
  case isTrue h =>
    obtain ⟨hi, hj⟩ := h
    have hgi : l[i]? = some (l.getD i 0) := by
      rw [List.getD_eq_getElem l 0 hi, List.getElem?_eq_getElem hi]
    have hgj : l[j]? = some (l.getD j 0) := by
      rw [List.getD_eq_getElem l 0 hj, List.getElem?_eq_getElem hj]
    by_cases hij : i = j
    · subst hij
      rw [List.set_set, set_self l i (l.getD i 0) hgi]
    · exact set_set_perm l i j (l.getD i 0) (l.getD j 0) hij hgi hgj
  case isFalse => exact List.Perm.refl l

theorem swapL_length (l : List Nat) (i j : Nat) :
    (swapL l i j).length = l.length :=
  (swapL_perm l i j).length_eq

theorem scanLoop_perm (keys : List Nat) (vp : Nat) :
    ∀ (fuel : Nat) (l : List Nat) (pi pj : Nat),
      (scanLoop keys vp fuel l pi pj).1.Perm l
  | 0, l, pi, _ => List.Perm.refl l
  | fuel + 1, l, pi, pj => by
    simp only [scanLoop]
    split
    · exact List.Perm.refl l
    · exact (scanLoop_perm keys vp fuel _ _ _).trans (swapL_perm l _ _)

theorem ite_swap_perm (c : Prop) [Decidable c] (l : List Nat) (i j : Nat) :
    (if c then swapL l i j else l).Perm l := by
  split
  · exact swapL_perm l i j
  · exact List.Perm.refl l

theorem partitionStep_perm (keys l : List Nat) (pl pr : Nat) :
    (partitionStep keys l pl pr).1.Perm l := by
  unfold partitionStep
  exact (swapL_perm _ _ _).trans ((scanLoop_perm _ _ _ _ _ _).trans
    ((swapL_perm _ _ _).trans ((ite_swap_perm _ _ _ _).trans
      ((ite_swap_perm _ _ _ _).trans (ite_swap_perm _ _ _ _)))))

theorem insInner_perm (keys : List Nat) (pl : Nat) :
    ∀ (fuel : Nat) (l : List Nat) (pj : Nat), (insInner keys pl fuel l pj).Perm l
  | 0, l, _ => List.Perm.refl l
  | fuel + 1, l, pj => by
    simp only [insInner]
    split
    · exact (insInner_perm keys pl fuel _ _).trans (swapL_perm l _ _)
    · exact List.Perm.refl l

theorem insSortRange_perm (keys : List Nat) (pl pr : Nat) :
    ∀ (fuel : Nat) (l : List Nat) (pi : Nat),
      (insSortRange keys pl pr fuel l pi).Perm l
  | 0, l, _ => List.Perm.refl l
  | fuel + 1, l, pi => by
    simp only [insSortRange]
    split
    · exact (insSortRange_perm keys pl pr fuel _ _).trans (insInner_perm keys pl _ l pi)
    · exact List.Perm.refl l

theorem siftLoop_perm (keys : List Nat) (pl n : Nat) :
    ∀ (fuel : Nat) (l : List Nat) (i j : Nat), (siftLoop keys pl n fuel l i j).Perm l
  | 0, l, _, _ => List.Perm.refl l
  | fuel + 1, l, i, j => by
    simp only [siftLoop]
    split
    · split
      · split
        · exact (siftLoop_perm keys pl n fuel _ _ _).trans (swapL_perm l _ _)
        · exact List.Perm.refl l
      · split
        · exact (siftLoop_perm keys pl n fuel _ _ _).trans (swapL_perm l _ _)
        · exact List.Perm.refl l
    · exact List.Perm.refl l

theorem heapifyLoop_perm (keys : List Nat) (pl n : Nat) :
    ∀ (fuel : Nat) (l : List Nat) (lv : Nat), (heapifyLoop keys pl n fuel l lv).Perm l
  | 0, l, _ => List.Perm.refl l
  | fuel + 1, l, lv => by
    simp only [heapifyLoop]
    split
    · exact (heapifyLoop_perm keys pl n fuel _ _).trans (siftLoop_perm keys pl n _ l _ _)
    · exact List.Perm.refl l

theorem extractLoop_perm (keys : List Nat) (pl : Nat) :
    ∀ (fuel : Nat) (l : List Nat) (m : Nat), (extractLoop keys pl fuel l m).Perm l
  | 0, l, _ => List.Perm.refl l
  | fuel + 1, l, m => by
    simp only [extractLoop]
    split
    · exact ((extractLoop_perm keys pl fuel _ _).trans
        (siftLoop_perm keys pl _ _ _ _ _)).trans (swapL_perm l _ _)
    · exact List.Perm.refl l

theorem heapSortRange_perm (keys l : List Nat) (pl pr : Nat) :
    (heapSortRange keys l pl pr).Perm l := by
  unfold heapSortRange
  exact (extractLoop_perm _ _ _ _ _).trans (heapifyLoop_perm _ _ _ _ _ _)

theorem qsLoop_perm (keys : List Nat) :
    ∀ (fuel : Nat) (l : List Nat) (pl pr : Nat) (depth : Int)
      (stack : List (Nat × Nat)), (qsLoop keys fuel l pl pr depth stack).Perm l
  | 0, l, _, _, _, _ => List.Perm.refl l
  | fuel + 1, l, pl, pr, depth, stack => by
    simp only [qsLoop]
    split
    · split
      · split
        · exact heapSortRange_perm keys l pl pr
        · exact (qsLoop_perm keys fuel _ _ _ _ _).trans (heapSortRange_perm keys l pl pr)
      · split
        · exact (qsLoop_perm keys fuel _ _ _ _ _).trans (partitionStep_perm keys l pl pr)
        · exact (qsLoop_perm keys fuel _ _ _ _ _).trans (partitionStep_perm keys l pl pr)
    · split
      · exact insSortRange_perm keys pl pr _ l _
      · exact (qsLoop_perm keys fuel _ _ _ _ _).trans (insSortRange_perm keys pl pr _ l _)

theorem aargsort_perm (keys : List Nat) :
    (aargsort keys).Perm (List.range keys.length) :=
  qsLoop_perm keys _ _ _ _ _ _

theorem filterMap_getElem_range {α : Type} :
    ∀ l : List α, (List.range l.length).filterMap (fun i => l[i]?) = l
  | [] => rfl
  | x :: xs => by
    rw [List.length_cons, List.range_succ_eq_map, List.filterMap_cons]
    simp only [List.getElem?_cons_zero, List.filterMap_map]
    have : (fun i => (x :: xs)[i]?) ∘ Nat.succ = fun i => xs[i]? := by
      funext i
      simp
    rw [this, filterMap_getElem_range xs]

/-- The reordering `sort_values(by='date')` performs is a permutation of the
input records. -/
theorem sortValuesByDate_perm (recs : List TickRecord) :
    (sortValuesByDate recs).Perm recs := by
  unfold sortValuesByDate
  have h := (aargsort_perm (recs.map (·.date))).filterMap (fun i => recs[i]?)
  rw [List.length_map] at h
  exact h.trans (by rw [filterMap_getElem_range])

theorem sortValuesByDate_length (recs : List TickRecord) :
    (sortValuesByDate recs).length = recs.length :=
  (sortValuesByDate_perm recs).length_eq

theorem sortValuesByDate_mem {recs : List TickRecord} {r : TickRecord} :
    r ∈ sortValuesByDate recs ↔ r ∈ recs :=
  (sortValuesByDate_perm recs).mem_iff

/-! ## `rolling(window=window).mean()` (line 99)

pandas computes the fixed-size rolling mean with a sliding accumulator: each
new observation is added to a running sum, the observation leaving the window
is subtracted, and the cell is `NaN` while fewer than `min_periods = window`
observations have been seen.  `rollMeanGo` carries the current window
contents `q` and the running sum `s`. -/

def rollMeanGo (w : Nat) : List ℚ → ℚ → List ℚ → List (Option ℚ)
  | _, _, [] => []
  | q, s, x :: rest =>
    let q1 := q ++ [x]
    let s1 := s + x
    if q1.length < w then none :: rollMeanGo w q1 s1 rest
    else
      let k := q1.length - w
      let s2 := s1 - (q1.take k).sum
      some (s2 / (w : ℚ)) :: rollMeanGo w (q1.drop k) s2 rest

/-- `series.rolling(window=w).mean()` on a NaN-free column. -/
def rollMean (w : Nat) (xs : List ℚ) : List (Option ℚ) := rollMeanGo w [] 0 xs

/-- Modelled from the spec: the positional description of the derived
`MA_<window>` column (§3 of the spec) — position `i` is defined iff
`i ≥ window - 1`, and then holds the arithmetic mean of the closing prices at
positions `i - window + 1 .. i`.  Stated independently of `rollMean` so the
code's sliding-accumulator computation can be proved to refine it. -/
def maSpecColumn (w : Nat) (closes : List ℚ) : List (Option ℚ) :=
  (List.range closes.length).map (fun i =>
    if i + 1 < w then none
    else some (((closes.drop (i + 1 - w)).take w).sum / (w : ℚ)))

theorem range_map_succ {α : Type} (f : ℕ → α) (n : ℕ) :
    (List.range (n + 1)).map f = f 0 :: (List.range n).map (fun j => f (j + 1)) := by
  rw [List.range_succ_eq_map, List.map_cons, List.map_map]
  rfl

theorem rollMeanGo_spec (w : Nat) (hw : 1 ≤ w) (xs : List ℚ) :
    ∀ (rest pre q : List ℚ) (s : ℚ), xs = pre ++ rest →
      q = pre.drop (pre.length - w) → s = q.sum →
      rollMeanGo w q s rest = (List.range rest.length).map (fun j =>
        if pre.length + j + 1 < w then none
        else some (((xs.take (pre.length + j + 1)).drop
            (pre.length + j + 1 - w)).sum / (w : ℚ)))
  | [], pre, q, s, _, _, _ => by simp [rollMeanGo]
  | x :: rest, pre, q, s, hxs, hq, hs => by
    have hqlen : q.length = pre.length - (pre.length - w) := by
      rw [hq]; exact List.length_drop _ _
    have hq1 : q ++ [x] = (pre ++ [x]).drop (pre.length - w) := by
      rw [hq]; exact (List.drop_append_of_le_length (by omega)).symm
    have hs1 : s + x = (q ++ [x]).sum := by
      rw [hs, List.sum_append, List.sum_cons, List.sum_nil, add_zero]
    have hxs' : xs = (pre ++ [x]) ++ rest := by rw [hxs, List.append_cons]
    have hlen' : (pre ++ [x]).length = pre.length + 1 := by simp
    simp only [rollMeanGo]
    by_cases hA : pre.length + 1 < w
    · -- still filling the window: emit `none`, keep the whole buffer
      rw [if_pos (by simp only [List.length_append, List.length_cons,
        List.length_nil]; omega)]
      have hrec := rollMeanGo_spec w hw xs rest (pre ++ [x]) (q ++ [x]) (s + x)
        hxs' (by
          rw [hq1, hlen']
          have h0 : pre.length - w = 0 := by omega
          have h1 : pre.length + 1 - w = 0 := by omega
          rw [h0, h1]) hs1
      simp only [List.length_cons]
      rw [range_map_succ, if_pos (by omega), hrec]
      congr 1
      refine List.map_congr_left fun j _ => ?_
      have harith : (pre ++ [x]).length + j + 1 = pre.length + (j + 1) + 1 := by
        rw [hlen']; omega
      rw [harith]
    · rw [if_neg (by simp only [List.length_append, List.length_cons,
        List.length_nil]; omega)]
      have hq2 : (q ++ [x]).drop ((q ++ [x]).length - w)
          = (pre ++ [x]).drop (pre.length + 1 - w) := by
        have hklen : (q ++ [x]).length = pre.length - (pre.length - w) + 1 := by
          simp [hqlen]
        rw [hklen, hq1, List.drop_drop]
        congr 1
        omega
      have hs2 : s + x - ((q ++ [x]).take ((q ++ [x]).length - w)).sum
          = ((q ++ [x]).drop ((q ++ [x]).length - w)).sum := by
        have hsplit := List.sum_take_add_sum_drop (q ++ [x]) ((q ++ [x]).length - w)
        rw [hs1]
        linarith
      have htake : xs.take (pre.length + 1) = pre ++ [x] := by
        rw [hxs, List.take_append]
        simp
      have hrec := rollMeanGo_spec w hw xs rest (pre ++ [x])
        ((q ++ [x]).drop ((q ++ [x]).length - w))
        (s + x - ((q ++ [x]).take ((q ++ [x]).length - w)).sum)
        hxs' (by rw [hq2, hlen']) (by rw [hs2])
      simp only [List.length_cons]
      rw [range_map_succ, if_neg (by omega), hrec]
      have hhead : (s + x - ((q ++ [x]).take ((q ++ [x]).length - w)).sum) / (w : ℚ)
          = ((xs.take (pre.length + 0 + 1)).drop (pre.length + 0 + 1 - w)).sum / (w : ℚ) := by
        rw [hs2, hq2]
        simp only [Nat.add_zero, htake]
      rw [← hhead]
      congr 1
      refine List.map_congr_left fun j _ => ?_
      have harith : (pre ++ [x]).length + j + 1 = pre.length + (j + 1) + 1 := by
        rw [hlen']; omega
      rw [harith]

/-- The sliding-accumulator rolling mean of the code computes exactly the
positional column the spec describes. -/
theorem rollMean_eq_maSpec (w : Nat) (hw : 1 ≤ w) (xs : List ℚ) :
    rollMean w xs = maSpecColumn w xs := by
  unfold rollMean maSpecColumn
  have h := rollMeanGo_spec w hw xs xs [] [] 0 (by simp) (by simp) (by simp)
  rw [h]
  refine List.map_congr_left fun i _ => ?_
  simp only [List.length_nil, Nat.zero_add]
  by_cases hc : i + 1 < w
  · rw [if_pos hc, if_pos hc]
  · rw [if_neg hc, if_neg hc, List.drop_take]
    have harith : i + 1 - (i + 1 - w) = w := by omega
    rw [harith]

theorem rollMean_length (w : Nat) (hw : 1 ≤ w) (xs : List ℚ) :
    (rollMean w xs).length = xs.length := by
  rw [rollMean_eq_maSpec w hw xs]
  unfold maSpecColumn
  rw [List.length_map, List.length_range]

/-! ## DataFrames, `read_nasdaq_data`, `filter_by_ticker`,
`calculate_moving_average` -/

/-- A cleaned pandas DataFrame: its column list and its typed rows. -/
structure Frame where
  cols : List String
  recs : List TickRecord
deriving DecidableEq, Repr

/-- `pd.DataFrame()`: the empty frame `read_nasdaq_data` returns on any
caught exception. -/
def emptyFrame : Frame := ⟨[], []⟩

/-- A transport failure of `requests.get` / `raise_for_status` (timeout,
connection error, non-2xx status). -/
inductive FetchErr where
  | requestFailure
deriving DecidableEq, Repr

/-- `read_nasdaq_data` (lines 14-60): on a successful fetch, clean the parsed
rows; any exception raised while fetching or cleaning is caught by the
`except` clauses, printed, and turned into an empty DataFrame. -/
def read_nasdaq_data (fetched : Except FetchErr (List RawRow)) : Frame :=
  match fetched with
  | .error _ => emptyFrame
  | .ok rows =>
    match cleanRows rows with
    | .error _ => emptyFrame
    | .ok recs => ⟨COLUMN_NAMES, recs⟩

/-- `filter_by_ticker` (lines 63-75): the subsequence of records carrying the
requested ticker, as a new frame (`.copy()`). -/
def filter_by_ticker (df : Frame) (ticker : String) : Frame :=
  ⟨df.cols, df.recs.filter (fun r => r.ticker == ticker)⟩

/-- A Python value passed as the `window` argument: either an `int` (Python
`isinstance(window, int)`, which also covers `bool`) or a non-integer number
(`float`). -/
inductive Win where
  | int (n : Int)
  | float (q : ℚ)
deriving DecidableEq, Repr

/-- The two `ValueError`s `calculate_moving_average` can raise: a missing
`'close'` column (checked first) and a non-positive or non-integer window. -/
inductive CalcError where
  | schemaError
  | invalidWindowError
deriving DecidableEq, Repr

/-- A DataFrame carrying the derived `MA_<window>` column: each row pairs a
tick record with its (possibly undefined) rolling-mean cell. -/
structure MAFrame where
  cols : List String
  rows : List (TickRecord × Option ℚ)
deriving DecidableEq, Repr

/-- `calculate_moving_average` (lines 78-100): validate the schema and the
window, sort a copy of the frame by `date` (pandas default unstable
quicksort), and append the `MA_<window>` rolling-mean column. -/
def calculate_moving_average (df : Frame) (window : Win) : Except CalcError MAFrame :=
  if "close" ∉ df.cols then .error .schemaError
  else
    match window with
    | .float _ => .error .invalidWindowError
    | .int w =>
      if w ≤ 0 then .error .invalidWindowError
      else
        let df_sorted := sortValuesByDate df.recs
        .ok ⟨df.cols ++ ["MA_" ++ toString w],
          df_sorted.zip (rollMean w.toNat (df_sorted.map (·.close)))⟩

/-- The rows of a successful `calculate_moving_average` call (empty on an
exception); a total projection used to state the theorems. -/
def calcRowsD (df : Frame) (window : Win) : List (TickRecord × Option ℚ) :=
  match calculate_moving_average df window with
  | .ok m => m.rows
  | .error _ => []

/-! ## `generate_html_report` and `main` -/

/-- The assembled report document (the data contents of the generated HTML):
the ticker list printed in the executive summary, one chart section (with its
plotted data) per ticker that has rows, and the combined table. -/
structure Report where
  headerTickers : List String
  sections : List (String × List (TickRecord × Option ℚ))
  tableRows : List (TickRecord × Option ℚ)
  window : Win
deriving DecidableEq, Repr

/-- `generate_html_report` (lines 103-280), data content: for each ticker in
the given order, the rows of the combined frame carrying that ticker are
plotted as one chart section — tickers with no rows are skipped — and the
whole combined frame is rendered as the single trailing table. -/
def generate_html_report (tableRows : List (TickRecord × Option ℚ))
    (tickers : List String) (window : Win) : Report :=
  let plots := tickers.filterMap (fun t =>
    let ticker_df := tableRows.filter (fun p => p.1.ticker == t)
    if ticker_df.isEmpty then none else some (t, ticker_df))
  ⟨tickers, plots, tableRows, window⟩

/-- The per-ticker loop of `main` (lines 313-316): filter each available
ticker and compute its moving average, collecting the processed frames; an
exception raised inside the loop propagates and aborts the run. -/
def processTickers (full : Frame) (window : Win) :
    List String → Except CalcError (List MAFrame)
  | [] => .ok []
  | t :: ts =>
    match calculate_moving_average (filter_by_ticker full t) window with
    | .error e => .error e
    | .ok m =>
      match processTickers full window ts with
      | .error e => .error e
      | .ok ms => .ok (m :: ms)

/-- `main` (lines 283-324), with the hardcoded configuration (`DATA_URL`,
`TICKERS_TO_ANALYZE`, `MOVING_AVERAGE_WINDOW = 30`) made explicit arguments:
read and clean the feed (halting on an empty frame), keep the requested
tickers present in the cleaned data (halting when none are), process each
available ticker, concatenate the per-ticker frames (`pd.concat`), and
generate the report.  `none` means the run aborted or crashed with no report
written. -/
def mainRun (fetched : Except FetchErr (List RawRow)) (tickers : List String)
    (window : Win) : Option Report :=
  let full_df := read_nasdaq_data fetched
  if full_df.recs.isEmpty then none
  else
    let available := tickers.filter (fun t => (full_df.recs.map (·.ticker)).contains t)
    if available.isEmpty then none
    else
      match processTickers full_df window available with
      | .error _ => none
      | .ok frames =>
        let report_df := (frames.map (·.rows)).flatten
        some (generate_html_report report_df available window)

/-! ## Writing the report document (lines 278-280)

`generate_html_report` ends with
`with open(REPORT_FILENAME, "w", encoding='utf-8') as f: f.write(html_template)`:
opening with mode `"w"` truncates the destination, and the single `write`
emits the document front to back.  `writeReportFile` models the destination's
content after the call, with `failAfter = some k` an I/O failure once `k`
characters have been emitted (`none` = no failure). -/

/-- One `<tr>` of the combined table rendering (`report_df.to_html`);
undefined `MA` cells render empty. -/
def renderRow (p : TickRecord × Option ℚ) : String :=
  "<tr><td>" ++ p.1.ticker ++ "</td><td>" ++ p.1.per ++ "</td><td>"
    ++ toString p.1.date ++ "</td><td>" ++ toString p.1.open_ ++ "</td><td>"
    ++ toString p.1.high ++ "</td><td>" ++ toString p.1.low ++ "</td><td>"
    ++ toString p.1.close ++ "</td><td>" ++ toString p.1.vol ++ "</td><td>"
    ++ (match p.2 with | none => "" | some v => toString v) ++ "</td></tr>"

/-- The complete document `generate_html_report` assembles in memory before
opening the output file (`html_template`; the fixed CSS boilerplate, which no
claim depends on, is elided). -/
def renderReport (r : Report) : String :=
  "<html><head><title>NASDAQ Moving Average Report</title></head><body>"
    ++ "<h1>NASDAQ Stock Analysis Report</h1><p>The analysis covers the following tickers: "
    ++ String.intercalate ", " r.headerTickers ++ "</p>"
    ++ String.join (r.sections.map (fun s => "<div><h2>Analysis for " ++ s.1 ++ "</h2></div>"))
    ++ "<table>" ++ String.join (r.tableRows.map renderRow) ++ "</table>"
    ++ "</body></html>"

/-- Content of the destination file after the write of lines 278-279:
`open(.., "w")` truncates whatever was there (`oldContent`), then `f.write`
emits `renderReport r` sequentially; an I/O failure after `k` characters
leaves the prefix written so far. -/
def writeReportFile (_oldContent : String) (r : Report) (failAfter : Option Nat) : String :=
  let doc := renderReport r
  match failAfter with
  | none => doc
  | some k => ⟨doc.data.take k⟩

/-! ## Object-level view of `calculate_moving_average`

To state that the function leaves its input frame untouched, the same source
lines are modelled one level lower: DataFrame objects live on a heap (a list
of frame states addressed by position), `sort_values` *allocates* a new
frame, and the column assignment `df_sorted[ma_col_name] = ...` mutates that
new frame in place. -/

/-- The state of one DataFrame object: columns, rows, and the derived
`MA_<window>` column once assigned. -/
structure PFrame where
  cols : List String
  recs : List TickRecord
  maCol : Option (List (Option ℚ))
deriving DecidableEq, Repr

/-- `calculate_moving_average` acting on the heap of live DataFrame objects:
`heap` is the list of frame states, `r` the position of the argument frame.
Validation raises before any frame is touched; then `df.sort_values`
allocates a fresh sorted frame at the end of the heap, and the rolling-mean
column assignment updates that fresh frame in place.  Returns the new heap
and the position of the result frame (or the raised error). -/
def calcMAHeap (heap : List PFrame) (r : Nat) (window : Win) :
    List PFrame × Except CalcError Nat :=
  let df := heap.getD r ⟨[], [], none⟩
  if "close" ∉ df.cols then (heap, .error .schemaError)
  else
    match window with
    | .float _ => (heap, .error .invalidWindowError)
    | .int w =>
      if w ≤ 0 then (heap, .error .invalidWindowError)
      else
        let sortedRecs := sortValuesByDate df.recs
        let h1 := heap ++ [⟨df.cols, sortedRecs, none⟩]
        let r1 := heap.length
        let ma := rollMean w.toNat (sortedRecs.map (·.close))
        let h2 := h1.set r1 ⟨df.cols ++ ["MA_" ++ toString w], sortedRecs, some ma⟩
        (h2, .ok r1)

/-! ## Helper lemmas about the embedded operations -/

/-- A successful `calculate_moving_average` call, spelled out. -/
theorem calculate_ok (df : Frame) (w : Int) (hw : 1 ≤ w) (hc : "close" ∈ df.cols) :
    calculate_moving_average df (.int w)
      = .ok ⟨df.cols ++ ["MA_" ++ toString w],
          (sortValuesByDate df.recs).zip
            (rollMean w.toNat ((sortValuesByDate df.recs).map (·.close)))⟩ := by
  unfold calculate_moving_average
  rw [if_neg (by simp [hc])]
  dsimp only
  rw [if_neg (by omega)]

theorem calcRowsD_ok (df : Frame) (w : Int) (hw : 1 ≤ w) (hc : "close" ∈ df.cols) :
    calcRowsD df (.int w)
      = (sortValuesByDate df.recs).zip
          (rollMean w.toNat ((sortValuesByDate df.recs).map (·.close))) := by
  unfold calcRowsD
  rw [calculate_ok df w hw hc]

theorem calcRowsD_map_fst (df : Frame) (w : Int) (hw : 1 ≤ w) (hc : "close" ∈ df.cols) :
    (calcRowsD df (.int w)).map Prod.fst = sortValuesByDate df.recs := by
  rw [calcRowsD_ok df w hw hc]
  refine List.map_fst_zip _ _ ?_
  rw [rollMean_length _ (by omega) _, List.length_map]

theorem calcRowsD_map_snd (df : Frame) (w : Int) (hw : 1 ≤ w) (hc : "close" ∈ df.cols) :
    (calcRowsD df (.int w)).map Prod.snd
      = rollMean w.toNat ((sortValuesByDate df.recs).map (·.close)) := by
  rw [calcRowsD_ok df w hw hc]
  refine List.map_snd_zip _ _ ?_
  rw [rollMean_length _ (by omega) _, List.length_map]

theorem calcRowsD_length (df : Frame) (w : Int) (hw : 1 ≤ w) (hc : "close" ∈ df.cols) :
    (calcRowsD df (.int w)).length = df.recs.length := by
  rw [calcRowsD_ok df w hw hc, List.length_zip,
    rollMean_length _ (by omega) _, List.length_map, Nat.min_self,
    sortValuesByDate_length]

/-- Filtering a zip on a predicate of the second components. -/
theorem zip_filter_snd_length {α β : Type} (p : β → Bool) :
    ∀ (l : List α) (m : List β), l.length = m.length →
      ((l.zip m).filter (fun x => p x.2)).length = (m.filter p).length
  | [], [], _ => rfl
  | [], b :: m, h => by simp at h
  | a :: l, [], h => by simp at h
  | a :: l, b :: m, h => by
    simp only [List.length_cons, Nat.add_right_cancel_iff] at h
    simp only [List.zip_cons_cons, List.filter_cons]
    by_cases hb : p b
    · simp only [hb, if_pos, List.length_cons]
      rw [zip_filter_snd_length p l m h]
    · simp only [hb, if_neg, Bool.false_eq_true, not_false_iff]
      rw [zip_filter_snd_length p l m h]

theorem range_filter_ge_length :
    ∀ (n w : Nat), 1 ≤ w →
      ((List.range n).filter (fun i => decide (w ≤ i + 1))).length = n + 1 - w
  | 0, w, hw => by
    simp only [List.range_zero, List.filter_nil, List.length_nil]
    omega
  | n + 1, w, hw => by
    rw [show n + 1 = Nat.succ n from rfl, List.range_succ, List.filter_append,
      List.length_append, range_filter_ge_length n w hw]
    by_cases h : w ≤ n + 1
    · simp only [List.filter_cons, List.filter_nil, decide_eq_true h, if_pos,
        List.length_cons, List.length_nil]
      omega
    · simp only [List.filter_cons, List.filter_nil,
        decide_eq_false h, Bool.false_eq_true, if_neg, not_false_iff, List.length_nil]
      omega

/-- The spec column has exactly `max(n - w + 1, 0)` defined cells. -/
theorem maSpecColumn_defined_count (w : Nat) (hw : 1 ≤ w) (closes : List ℚ) :
    ((maSpecColumn w closes).filter (fun o => o.isSome)).length
      = closes.length + 1 - w := by
  unfold maSpecColumn
  rw [List.filter_map, List.length_map]
  have hcongr : ∀ i ∈ List.range closes.length,
      ((fun o => Option.isSome o) ∘ fun i =>
        if i + 1 < w then (none : Option ℚ)
        else some (((closes.drop (i + 1 - w)).take w).sum / (w : ℚ))) i
      = (fun i => decide (w ≤ i + 1)) i := by
    intro i _
    by_cases hc : i + 1 < w
    · simp [hc, Nat.not_le.mpr hc]
    · simp [hc, Nat.not_lt.mp hc]
  rw [List.filter_congr hcongr, range_filter_ge_length closes.length w hw]

/-- The columnwise coerce-then-drop phase computes the row-atomic
`filterMap` when every timestamp parses. -/
theorem dropnaBuild_eq_filterMap :
    ∀ rows : List RawRow,
      rows.all (fun row => (parseTimestamp row.date).isSome) = true →
      dropnaBuild rows (rows.map fun r => (parseTimestamp r.date).getD 0)
        (rows.map fun r => toNumeric r.open_) (rows.map fun r => toNumeric r.high)
        (rows.map fun r => toNumeric r.low) (rows.map fun r => toNumeric r.close)
        (rows.map fun r => toNumeric r.vol)
      = rows.filterMap rowToRecord
  | [], _ => rfl
  | r :: rows, h => by
    simp only [List.all_cons, Bool.and_eq_true] at h
    obtain ⟨hr, hrest⟩ := h
    obtain ⟨d, hd⟩ := Option.isSome_iff_exists.mp hr
    have ih := dropnaBuild_eq_filterMap rows hrest
    simp only [List.map_cons]
    cases ho : toNumeric r.open_ with
    | none => simp [dropnaBuild, rowToRecord, hd, ho, ih]
    | some o =>
      cases hh : toNumeric r.high with
      | none => simp [dropnaBuild, rowToRecord, hd, ho, hh, ih]
      | some hi =>
        cases hl : toNumeric r.low with
        | none => simp [dropnaBuild, rowToRecord, hd, ho, hh, hl, ih]
        | some lo =>
          cases hc : toNumeric r.close with
          | none => simp [dropnaBuild, rowToRecord, hd, ho, hh, hl, hc, ih]
          | some c =>
            cases hv : toNumeric r.vol with
            | none => simp [dropnaBuild, rowToRecord, hd, ho, hh, hl, hc, hv, ih]
            | some v => simp [dropnaBuild, rowToRecord, hd, ho, hh, hl, hc, hv, ih]

/-- When every timestamp parses, cleaning succeeds and keeps, in input
order, exactly the rows whose numeric fields all coerce. -/
theorem cleanRows_ok (rows : List RawRow)
    (h : rows.all (fun row => (parseTimestamp row.date).isSome) = true) :
    cleanRows rows = .ok (rows.filterMap rowToRecord) := by
  have hnotmem : none ∉ rows.map (fun r => parseTimestamp r.date) := by
    intro hmem
    obtain ⟨r, hrmem, hnone⟩ := List.mem_map.mp hmem
    have := List.all_eq_true.mp h r hrmem
    rw [hnone] at this
    simp at this
  unfold cleanRows
  rw [if_neg hnotmem]
  dsimp only
  rw [dropnaBuild_eq_filterMap rows h]

/-- When some timestamp fails to parse, cleaning raises the batch-fatal
timestamp error. -/
theorem cleanRows_bad_date (rows : List RawRow)
    (h : rows.any (fun row => (parseTimestamp row.date).isNone) = true) :
    cleanRows rows = .error .timestampParseError := by
  unfold cleanRows
  rw [if_pos]
  obtain ⟨r, hrmem, hnone⟩ := List.any_eq_true.mp h
  refine List.mem_map.mpr ⟨r, hrmem, ?_⟩
  exact Option.isNone_iff_eq_none.mp hnone |>.symm ▸ rfl

/-- The frame of a successful `calculate_moving_average` call (a default
empty frame on an exception); total projection for stating lemmas. -/
def calcFrameD (df : Frame) (window : Win) : MAFrame :=
  match calculate_moving_average df window with
  | .ok m => m
  | .error _ => ⟨[], []⟩

theorem calcFrameD_rows (df : Frame) (window : Win) :
    (calcFrameD df window).rows = calcRowsD df window := by
  unfold calcFrameD calcRowsD
  cases calculate_moving_average df window <;> rfl

/-- The requested tickers found in the cleaned dataset, in request order
(`available_tickers` in `main`). -/
def availableTickers (fetched : Except FetchErr (List RawRow))
    (tickers : List String) : List String :=
  tickers.filter (fun t => ((read_nasdaq_data fetched).recs.map (·.ticker)).contains t)

theorem read_cols_of_recs_ne (fetched : Except FetchErr (List RawRow))
    (h : (read_nasdaq_data fetched).recs ≠ []) :
    (read_nasdaq_data fetched).cols = COLUMN_NAMES := by
  cases fetched with
  | error e => exact absurd rfl h
  | ok rows =>
    unfold read_nasdaq_data at h ⊢
    dsimp only at h ⊢
    cases hcr : cleanRows rows with
    | error e => rw [hcr] at h; exact absurd rfl h
    | ok recs => rfl

theorem processTickers_eq_map (full : Frame) (w : Int) (hw : 1 ≤ w)
    (hc : "close" ∈ full.cols) :
    ∀ ts : List String, processTickers full (.int w) ts
      = .ok (ts.map fun t => calcFrameD (filter_by_ticker full t) (.int w))
  | [] => rfl
  | t :: ts => by
    have hok := calculate_ok (filter_by_ticker full t) w hw hc
    simp only [processTickers, hok, processTickers_eq_map full w hw hc ts,
      List.map_cons]
    unfold calcFrameD
    rw [hok]

/-- A successful run, spelled out: the report built from the concatenation of
the per-ticker moving-average frames over the available tickers. -/
theorem mainRun_some (fetched : Except FetchErr (List RawRow))
    (tickers : List String) (w : Int) (hw : 1 ≤ w)
    (hne : (read_nasdaq_data fetched).recs ≠ [])
    (hav : availableTickers fetched tickers ≠ []) :
    mainRun fetched tickers (.int w)
      = some (generate_html_report
          ((availableTickers fetched tickers).map
            (fun t => calcRowsD (filter_by_ticker (read_nasdaq_data fetched) t)
              (.int w))).flatten
          (availableTickers fetched tickers) (.int w)) := by
  have hcols : "close" ∈ (read_nasdaq_data fetched).cols := by
    rw [read_cols_of_recs_ne fetched hne]
    decide
  unfold mainRun
  rw [if_neg (by simp [hne])]
  dsimp only
  rw [if_neg (by simpa [availableTickers] using hav)]
  rw [show (tickers.filter
      (fun t => ((read_nasdaq_data fetched).recs.map (·.ticker)).contains t))
      = availableTickers fetched tickers from rfl]
  rw [processTickers_eq_map (read_nasdaq_data fetched) w hw hcols]
  dsimp only
  rw [List.map_map]
  have : ((fun m => MAFrame.rows m) ∘ fun t =>
      calcFrameD (filter_by_ticker (read_nasdaq_data fetched) t) (.int w))
      = fun t => calcRowsD (filter_by_ticker (read_nasdaq_data fetched) t) (.int w) := by
    funext t
    exact calcFrameD_rows _ _
  rw [this]

theorem calcRows_ticker_all (full : Frame) (w : Int) (hw : 1 ≤ w)
    (hc : "close" ∈ full.cols) (t : String) :
    ∀ p ∈ calcRowsD (filter_by_ticker full t) (.int w), p.1.ticker = t := by
  intro p hp
  have hfst : p.1 ∈ (calcRowsD (filter_by_ticker full t) (.int w)).map Prod.fst :=
    List.mem_map_of_mem Prod.fst hp
  rw [calcRowsD_map_fst (filter_by_ticker full t) w hw hc] at hfst
  have hmem := sortValuesByDate_mem.mp hfst
  have := List.mem_filter.mp hmem
  simpa using this.2

theorem calcRows_ne_nil (full : Frame) (w : Int) (hw : 1 ≤ w)
    (hc : "close" ∈ full.cols) (t : String)
    (hmem : ∃ r ∈ full.recs, r.ticker = t) :
    calcRowsD (filter_by_ticker full t) (.int w) ≠ [] := by
  obtain ⟨r, hr, ht⟩ := hmem
  have hrf : r ∈ (filter_by_ticker full t).recs :=
    List.mem_filter.mpr ⟨hr, by simp [ht]⟩
  intro hnil
  have hlen := calcRowsD_length (filter_by_ticker full t) w hw hc
  rw [hnil] at hlen
  exact List.ne_nil_of_mem hrf (List.eq_nil_of_length_eq_zero hlen.symm)

theorem generate_sections_of_nonempty (tableRows : List (TickRecord × Option ℚ))
    (window : Win) :
    ∀ ts : List String,
      (∀ t ∈ ts, tableRows.filter (fun p => p.1.ticker == t) ≠ []) →
      (generate_html_report tableRows ts window).sections.map Prod.fst = ts
  | [], _ => rfl
  | t :: ts, h => by
    have hne := h t (List.mem_cons_self t ts)
    have ih := generate_sections_of_nonempty tableRows window ts
      (fun u hu => h u (List.mem_cons_of_mem t hu))
    unfold generate_html_report at ih ⊢
    dsimp only at ih ⊢
    rw [List.filterMap_cons, if_neg (by simpa [List.isEmpty_iff] using hne)]
    dsimp only
    rw [List.map_cons, ih]

/-- The two abort conditions of `main`: empty cleaned frame, or no requested
ticker present. -/
theorem mainRun_none_of (fetched : Except FetchErr (List RawRow))
    (tickers : List String) (window : Win)
    (h : (read_nasdaq_data fetched).recs = [] ∨ availableTickers fetched tickers = []) :
    mainRun fetched tickers window = none := by
  rcases h with h | h
  · unfold mainRun
    rw [if_pos (by simp [h])]
  · by_cases hne : (read_nasdaq_data fetched).recs = []
    · unfold mainRun
      rw [if_pos (by simp [hne])]
    · unfold mainRun
      rw [if_neg (by simp [hne])]
      dsimp only
      rw [if_pos (by simpa [availableTickers] using h)]

/-- The ticker of each chart section of an optional report. -/
def reportSectionTickers (o : Option Report) : List String :=
  match o with
  | some r => r.sections.map Prod.fst
  | none => []

/-- The ticker list of the report header / executive summary. -/
def reportHeader (o : Option Report) : List String :=
  match o with
  | some r => r.headerTickers
  | none => []

/-- The combined-table rows of an optional report. -/
def reportTableRows (o : Option Report) : List (TickRecord × Option ℚ) :=
  match o with
  | some r => r.tableRows
  | none => []

/-- `isinstance(window, int) and window > 0`: is this Python value a
positive integer? -/
def Win.isPosInt : Win → Bool
  | .int n => decide (0 < n)
  | .float _ => false

/-! ## Example data used by witnesses and counterexamples -/

/-- A well-formed raw feed row for ticker `AAPL`. -/
def exRow1 : RawRow := ⟨"AAPL", "I", "201004010930", "10", "11", "9", "10.5", "100"⟩

/-- A second well-formed raw feed row. -/
def exRow2 : RawRow := ⟨"AAPL", "I", "201004010931", "10.5", "11.5", "9.5", "11.5", "120"⟩

/-- A raw row whose `open` field does not coerce to a number. -/
def exRowBadNum : RawRow := ⟨"AAPL", "I", "201004010932", "n/a", "11", "9", "10", "100"⟩

/-- A raw row whose timestamp does not match `%Y%m%d%H%M`. -/
def exRowBadDate : RawRow := ⟨"AAPL", "I", "2010-04-01 09:30", "10", "11", "9", "10", "100"⟩

/-- Three cleaned single-ticker records, deliberately out of chronological
order. -/
def exRecsC1 : List TickRecord :=
  [⟨"AAPL", "I", 201004010931, 1, 1, 1, 4, 1⟩,
   ⟨"AAPL", "I", 201004010930, 1, 1, 1, 2, 1⟩,
   ⟨"AAPL", "I", 201004010932, 1, 1, 1, 6, 1⟩]

/-- A cleaned frame holding `exRecsC1`. -/
def exDfC1 : Frame := ⟨COLUMN_NAMES, exRecsC1⟩

/-- Seventeen records sharing one ticker and one timestamp, numbered by their
`vol` field: the smallest series on which numpy's quicksort leaves the
insertion-sort regime. -/
def exTieRecs : List TickRecord :=
  (List.range 17).map (fun i => ⟨"TIE", "I", 201004010930, 1, 1, 1, 1, (i : ℚ)⟩)

/-- A cleaned frame holding `exTieRecs`. -/
def exTieFrame : Frame := ⟨COLUMN_NAMES, exTieRecs⟩

/-- A small report used to exhibit a partial write. -/
def exReportC9 : Report := ⟨["AAPL"], [], [], .int 30⟩

/-! ## The claims -/

/-- C1: for every positive integer window `w` and every single-ticker series
with a closing-price column, `calculate_moving_average` succeeds (also when
`w` exceeds the length), and on the series as re-sorted by its internal sort
the derived `MA` column is exactly the spec column: position `i` is defined
iff `i ≥ w - 1`, a defined position holds the arithmetic mean of the closing
prices at positions `i-w+1 .. i`, and exactly `max(n - w + 1, 0)` positions
are defined, all at the trailing end. -/
theorem c1_rolling_mean_semantics (df : Frame) (w : Int) (t : String)
    (hw : 1 ≤ w) (hc : "close" ∈ df.cols)
    (_ht : df.recs.all (fun r => r.ticker == t) = true) :
    (calculate_moving_average df (.int w)).isOk = true ∧
    (calcRowsD df (.int w)).map Prod.fst = sortValuesByDate df.recs ∧
    (calcRowsD df (.int w)).map Prod.snd
      = maSpecColumn w.toNat ((sortValuesByDate df.recs).map (·.close)) ∧
    ((calcRowsD df (.int w)).filter (fun p => p.2.isSome)).length
      = df.recs.length + 1 - w.toNat := by
  refine ⟨?_, calcRowsD_map_fst df w hw hc, ?_, ?_⟩
  · rw [calculate_ok df w hw hc]
    rfl
  · rw [calcRowsD_map_snd df w hw hc, rollMean_eq_maSpec _ (by omega) _]
  · rw [calcRowsD_ok df w hw hc,
      zip_filter_snd_length _ _ _
        (by rw [rollMean_length _ (by omega), List.length_map]),
      rollMean_eq_maSpec _ (by omega) _, maSpecColumn_defined_count _ (by omega) _,
      List.length_map, sortValuesByDate_length]

/-- Witness for C1 at a concrete three-record series and window 2. -/
theorem c1_witness :
    ((1 : Int) ≤ 2 ∧ "close" ∈ exDfC1.cols
        ∧ exDfC1.recs.all (fun r => r.ticker == "AAPL") = true) ∧
    ((calculate_moving_average exDfC1 (.int 2)).isOk = true ∧
      (calcRowsD exDfC1 (.int 2)).map Prod.fst = sortValuesByDate exDfC1.recs ∧
      (calcRowsD exDfC1 (.int 2)).map Prod.snd
        = maSpecColumn (2 : Int).toNat ((sortValuesByDate exDfC1.recs).map (·.close)) ∧
      ((calcRowsD exDfC1 (.int 2)).filter (fun p => p.2.isSome)).length
        = exDfC1.recs.length + 1 - (2 : Int).toNat) :=
  ⟨⟨by decide, by decide, by decide⟩,
    c1_rolling_mean_semantics exDfC1 2 "AAPL" (by decide) (by decide) (by decide)⟩

/-- C2: when the batch's timestamps all parse, cleaning keeps — in input
order — exactly the rows all of whose five numeric fields coerce, as whole
typed rows (the decision is atomic per row); a row is excluded iff at least
one of `open/high/low/close/vol` fails coercion. -/
theorem c2_row_exclusion_atomic (rows : List RawRow) (r : RawRow)
    (hdates : rows.all (fun row => (parseTimestamp row.date).isSome) = true)
    (hr : (parseTimestamp r.date).isSome = true) :
    cleanRows rows = .ok (rows.filterMap rowToRecord) ∧
    (rowToRecord r = none ↔
      (toNumeric r.open_ = none ∨ toNumeric r.high = none ∨ toNumeric r.low = none
        ∨ toNumeric r.close = none ∨ toNumeric r.vol = none)) := by
  refine ⟨cleanRows_ok rows hdates, ?_⟩
  obtain ⟨d, hd⟩ := Option.isSome_iff_exists.mp hr
  simp only [rowToRecord, hd]
  cases toNumeric r.open_ <;> cases toNumeric r.high <;> cases toNumeric r.low <;>
    cases toNumeric r.close <;> cases toNumeric r.vol <;> simp

/-- Witness for C2 at a concrete batch containing a row with an uncoercible
`open` field. -/
theorem c2_witness :
    (([exRow1, exRowBadNum, exRow2].all
        (fun row => (parseTimestamp row.date).isSome) = true)
      ∧ (parseTimestamp exRowBadNum.date).isSome = true) ∧
    (cleanRows [exRow1, exRowBadNum, exRow2]
        = .ok ([exRow1, exRowBadNum, exRow2].filterMap rowToRecord) ∧
      (rowToRecord exRowBadNum = none ↔
        (toNumeric exRowBadNum.open_ = none ∨ toNumeric exRowBadNum.high = none
          ∨ toNumeric exRowBadNum.low = none ∨ toNumeric exRowBadNum.close = none
          ∨ toNumeric exRowBadNum.vol = none))) :=
  ⟨⟨by decide, by decide⟩,
    c2_row_exclusion_atomic [exRow1, exRowBadNum, exRow2] exRowBadNum
      (by decide) (by decide)⟩

/-- C3 counterexample: on seventeen records sharing one timestamp, the sort
inside `calculate_moving_average` (pandas default `kind='quicksort'`) does
not preserve input order: the records numbered 1 and 14 by their `vol` field
— equal timestamps, input order 1 before 14 — come out in the opposite
order, so the sort is not stable. -/
theorem c3_counterexample_unstable_sort :
    exTieRecs.all (fun r => r.date == 201004010930) = true ∧
    (exTieRecs.map (fun r => r.vol))[1]? = some 1 ∧
    (exTieRecs.map (fun r => r.vol))[14]? = some 14 ∧
    ((calcRowsD exTieFrame (.int 1)).map (fun p => p.1.vol))[1]? = some 14 ∧
    ((calcRowsD exTieFrame (.int 1)).map (fun p => p.1.vol))[14]? = some 1 := by
  refine ⟨by decide, by decide, by decide, by decide, by decide⟩

/-- C3 (amended): `movingAverage` re-orders the series by timestamp with
numpy's default quicksort: the output records are a permutation of the input
records, but the relative order of records with equal timestamps is not
preserved in general (only series of at most 16 records are handled by the
stable insertion-sort regime). -/
theorem c3_sort_is_permutation (df : Frame) (w : Int)
    (hw : 1 ≤ w) (hc : "close" ∈ df.cols) :
    ((calcRowsD df (.int w)).map Prod.fst).Perm df.recs := by
  rw [calcRowsD_map_fst df w hw hc]
  exact sortValuesByDate_perm df.recs

/-- Witness for the amended C3 on the seventeen-record tie series. -/
theorem c3_witness :
    ((1 : Int) ≤ 1 ∧ "close" ∈ exTieFrame.cols) ∧
    ((calcRowsD exTieFrame (.int 1)).map Prod.fst).Perm exTieFrame.recs :=
  ⟨⟨by decide, by decide⟩, c3_sort_is_permutation exTieFrame 1 (by decide) (by decide)⟩

/-- C4: a timestamp that fails to parse is fatal for the whole batch — the
cleaning core raises `timestampParseError` (never the numeric-coercion
error), `read_nasdaq_data` consequently returns the empty frame — while a
batch whose timestamps all parse never raises at all: numeric coercion
failures are handled by row exclusion, not propagation. -/
theorem c4_timestamp_failure_fatal_distinct (rows rows2 : List RawRow)
    (hbad : rows.any (fun row => (parseTimestamp row.date).isNone) = true)
    (hgood : rows2.all (fun row => (parseTimestamp row.date).isSome) = true) :
    cleanRows rows = .error .timestampParseError ∧
    read_nasdaq_data (.ok rows) = emptyFrame ∧
    cleanRows rows ≠ .error .numericCoercionError ∧
    (cleanRows rows2).isOk = true := by
  refine ⟨cleanRows_bad_date rows hbad, ?_, ?_, ?_⟩
  · unfold read_nasdaq_data
    dsimp only
    rw [cleanRows_bad_date rows hbad]
  · rw [cleanRows_bad_date rows hbad]
    simp
  · rw [cleanRows_ok rows2 hgood]
    rfl

/-- Witness for C4: a batch with a malformed timestamp and a batch with a
merely uncoercible numeric field. -/
theorem c4_witness :
    (([exRowBadDate].any (fun row => (parseTimestamp row.date).isNone) = true)
      ∧ ([exRow1, exRowBadNum].all
          (fun row => (parseTimestamp row.date).isSome) = true)) ∧
    (cleanRows [exRowBadDate] = .error .timestampParseError ∧
      read_nasdaq_data (.ok [exRowBadDate]) = emptyFrame ∧
      cleanRows [exRowBadDate] ≠ .error .numericCoercionError ∧
      (cleanRows [exRow1, exRowBadNum]).isOk = true) :=
  ⟨⟨by decide, by decide⟩,
    c4_timestamp_failure_fatal_distinct [exRowBadDate] [exRow1, exRowBadNum]
      (by decide) (by decide)⟩

/-- C5: on a frame with a closing-price column, every window that is not a
positive Python integer — every non-positive integer and every float — makes
`calculate_moving_average` raise the invalid-window error before any
moving-average value is computed (the returned `Except` carries no result). -/
theorem c5_invalid_window (df : Frame) (window : Win)
    (hc : "close" ∈ df.cols) (hbad : window.isPosInt = false) :
    calculate_moving_average df window = .error .invalidWindowError := by
  unfold calculate_moving_average
  rw [if_neg (by simp [hc])]
  cases window with
  | float q => rfl
  | int n =>
    simp only [Win.isPosInt, decide_eq_false_iff_not, Int.not_lt] at hbad
    dsimp only
    rw [if_pos (by omega)]

/-- Witness for C5 at window `0`. -/
theorem c5_witness :
    ("close" ∈ exDfC1.cols ∧ (Win.int 0).isPosInt = false) ∧
    calculate_moving_average exDfC1 (.int 0) = .error .invalidWindowError :=
  ⟨⟨by decide, by decide⟩, c5_invalid_window exDfC1 (.int 0) (by decide) (by decide)⟩

/-- C6: a run (with a valid window) aborts with no report exactly when the
cleaned dataset is empty (which covers a failed or empty fetch) or none of
the requested tickers occur in it; in particular a merely absent ticker never
makes the run fail. -/
theorem c6_abort_iff (fetched : Except FetchErr (List RawRow))
    (tickers : List String) (w : Int) (hw : 1 ≤ w) :
    mainRun fetched tickers (.int w) = none ↔
      ((read_nasdaq_data fetched).recs = [] ∨ availableTickers fetched tickers = []) := by
  constructor
  · intro hnone
    by_contra hrhs
    push_neg at hrhs
    obtain ⟨h1, h2⟩ := hrhs
    rw [mainRun_some fetched tickers w hw h1 h2] at hnone
    exact Option.noConfusion hnone
  · exact mainRun_none_of fetched tickers (.int w)

/-- Witness for C6: requesting only an absent ticker aborts the run. -/
theorem c6_witness :
    (1 : Int) ≤ 1 ∧
    (mainRun (.ok [exRow1]) ["MSFT"] (.int 1) = none ↔
      ((read_nasdaq_data (.ok [exRow1])).recs = []
        ∨ availableTickers (.ok [exRow1]) ["MSFT"] = [])) :=
  ⟨by decide, c6_abort_iff (.ok [exRow1]) ["MSFT"] 1 (by decide)⟩

/-- C7: when some but not all requested tickers are present in the cleaned
dataset, the run completes, the report holds exactly one chart section per
found ticker in request order (none for the absent ones), and the found
subset is observably reported in the document header — the partial match is
not an error. -/
theorem c7_partial_match (fetched : Except FetchErr (List RawRow))
    (tickers : List String) (w : Int) (hw : 1 ≤ w)
    (hsome : availableTickers fetched tickers ≠ [])
    (_hnotall : availableTickers fetched tickers ≠ tickers) :
    (mainRun fetched tickers (.int w)).isSome = true ∧
    reportSectionTickers (mainRun fetched tickers (.int w))
      = availableTickers fetched tickers ∧
    reportHeader (mainRun fetched tickers (.int w))
      = availableTickers fetched tickers := by
  have hne : (read_nasdaq_data fetched).recs ≠ [] := by
    intro h0
    apply hsome
    unfold availableTickers
    rw [h0]
    simp
  have hcols : "close" ∈ (read_nasdaq_data fetched).cols := by
    rw [read_cols_of_recs_ne fetched hne]
    decide
  have hmain := mainRun_some fetched tickers w hw hne hsome
  have hblocks : ∀ t ∈ availableTickers fetched tickers,
      (((availableTickers fetched tickers).map
        (fun u => calcRowsD (filter_by_ticker (read_nasdaq_data fetched) u)
          (.int w))).flatten.filter (fun p => p.1.ticker == t)) ≠ [] := by
    intro t htav
    have hex : ∃ r ∈ (read_nasdaq_data fetched).recs, r.ticker = t := by
      have := (List.mem_filter.mp htav).2
      have hmem : t ∈ (read_nasdaq_data fetched).recs.map (·.ticker) := by
        simpa using this
      obtain ⟨r, hr, ht⟩ := List.mem_map.mp hmem
      exact ⟨r, hr, ht⟩
    obtain ⟨p, hp⟩ := List.exists_mem_of_ne_nil _
      (calcRows_ne_nil (read_nasdaq_data fetched) w hw hcols t hex)
    have hpt : p.1.ticker = t :=
      calcRows_ticker_all (read_nasdaq_data fetched) w hw hcols t p hp
    have hpflat : p ∈ ((availableTickers fetched tickers).map
        (fun u => calcRowsD (filter_by_ticker (read_nasdaq_data fetched) u)
          (.int w))).flatten :=
      List.mem_flatten.mpr ⟨_, List.mem_map_of_mem _ htav, hp⟩
    exact List.ne_nil_of_mem (List.mem_filter.mpr ⟨hpflat, by simp [hpt]⟩)
  refine ⟨?_, ?_, ?_⟩
  · rw [hmain]
    rfl
  · rw [hmain]
    exact generate_sections_of_nonempty _ _ _ hblocks
  · rw [hmain]
    rfl

/-- Witness for C7: of the requested pair `AAPL, ZZZZ` only `AAPL` is
present; the run completes with a single `AAPL` section. -/
theorem c7_witness :
    ((1 : Int) ≤ 1 ∧ availableTickers (.ok [exRow1]) ["AAPL", "ZZZZ"] ≠ []
      ∧ availableTickers (.ok [exRow1]) ["AAPL", "ZZZZ"] ≠ ["AAPL", "ZZZZ"]) ∧
    ((mainRun (.ok [exRow1]) ["AAPL", "ZZZZ"] (.int 1)).isSome = true ∧
      reportSectionTickers (mainRun (.ok [exRow1]) ["AAPL", "ZZZZ"] (.int 1))
        = availableTickers (.ok [exRow1]) ["AAPL", "ZZZZ"] ∧
      reportHeader (mainRun (.ok [exRow1]) ["AAPL", "ZZZZ"] (.int 1))
        = availableTickers (.ok [exRow1]) ["AAPL", "ZZZZ"]) :=
  ⟨⟨by decide, by decide, by decide⟩,
    c7_partial_match (.ok [exRow1]) ["AAPL", "ZZZZ"] 1
      (by decide) (by decide) (by decide)⟩

/-- C8: the combined table of a completed run is the concatenation, in
request order, of the per-ticker moving-average series of the tickers
actually included, so its row count is the sum of their lengths. -/
theorem c8_combined_table (fetched : Except FetchErr (List RawRow))
    (tickers : List String) (w : Int) (hw : 1 ≤ w)
    (hrun : (mainRun fetched tickers (.int w)).isSome = true) :
    reportTableRows (mainRun fetched tickers (.int w))
      = ((availableTickers fetched tickers).map
          (fun t => calcRowsD (filter_by_ticker (read_nasdaq_data fetched) t)
            (.int w))).flatten ∧
    (reportTableRows (mainRun fetched tickers (.int w))).length
      = ((availableTickers fetched tickers).map
          (fun t => (calcRowsD (filter_by_ticker (read_nasdaq_data fetched) t)
            (.int w)).length)).sum := by
  have hne : (read_nasdaq_data fetched).recs ≠ [] := by
    intro h0
    rw [mainRun_none_of fetched tickers (.int w) (Or.inl h0)] at hrun
    simp at hrun
  have hav : availableTickers fetched tickers ≠ [] := by
    intro h0
    rw [mainRun_none_of fetched tickers (.int w) (Or.inr h0)] at hrun
    simp at hrun
  have hmain := mainRun_some fetched tickers w hw hne hav
  constructor
  · rw [hmain]
    rfl
  · rw [hmain]
    show (((availableTickers fetched tickers).map _).flatten).length = _
    rw [List.length_flatten, List.map_map]
    rfl

/-- Witness for C8 on a completed single-ticker run. -/
theorem c8_witness :
    ((1 : Int) ≤ 1 ∧ (mainRun (.ok [exRow1]) ["AAPL"] (.int 1)).isSome = true) ∧
    (reportTableRows (mainRun (.ok [exRow1]) ["AAPL"] (.int 1))
        = ((availableTickers (.ok [exRow1]) ["AAPL"]).map
            (fun t => calcRowsD (filter_by_ticker (read_nasdaq_data (.ok [exRow1])) t)
              (.int 1))).flatten ∧
      (reportTableRows (mainRun (.ok [exRow1]) ["AAPL"] (.int 1))).length
        = ((availableTickers (.ok [exRow1]) ["AAPL"]).map
            (fun t => (calcRowsD (filter_by_ticker (read_nasdaq_data (.ok [exRow1])) t)
              (.int 1)).length)).sum) :=
  ⟨⟨by decide, by decide⟩,
    c8_combined_table (.ok [exRow1]) ["AAPL"] 1 (by decide) (by decide)⟩

/-- C9 counterexample: the report write is not atomic.  An I/O failure after
five characters of the write leaves the destination holding a proper prefix
of the document — neither the complete document, nor the previous content,
nor nothing. -/
theorem c9_counterexample_partial_write :
    writeReportFile "previous" exReportC9 (some 5) ≠ renderReport exReportC9 ∧
    writeReportFile "previous" exReportC9 (some 5) ≠ "previous" ∧
    writeReportFile "previous" exReportC9 (some 5) ≠ "" := by
  refine ⟨by decide, by decide, by decide⟩

/-- C9 (amended): the document is fully assembled in memory and then written
with a single truncating open followed by one sequential write: without an
I/O failure the complete document is at the destination, and after any
failure the destination holds a prefix of the complete document (possibly a
partial one — the write is not atomic). -/
theorem c9_write_prefix (old : String) (r : Report) (failAfter : Option Nat) :
    writeReportFile old r none = renderReport r ∧
    (writeReportFile old r failAfter).data.IsPrefix (renderReport r).data := by
  constructor
  · rfl
  · cases failAfter with
    | none => exact List.prefix_refl _
    | some k => exact List.take_prefix k _

/-- C10: `calculate_moving_average` never mutates its argument frame: the
sort produces a fresh frame and the `MA` column is assigned to that fresh
frame, so after the call (successful or not) the input object is unchanged
on the heap, and the returned frame is never the input one. -/
theorem c10_input_frame_unchanged (heap : List PFrame) (r : Nat)
    (window : Win) (hr : r < heap.length) :
    (calcMAHeap heap r window).1[r]? = heap[r]? ∧
    (calcMAHeap heap r window).2 ≠ .ok r := by
  unfold calcMAHeap
  dsimp only
  by_cases hc : "close" ∉ (heap.getD r ⟨[], [], none⟩).cols
  · rw [if_pos hc]
    exact ⟨rfl, by simp⟩
  · rw [if_neg hc]
    cases window with
    | float q => exact ⟨rfl, by simp⟩
    | int w =>
      dsimp only
      by_cases hw : w ≤ 0
      · rw [if_pos hw]
        exact ⟨rfl, by simp⟩
      · rw [if_neg hw]
        dsimp only
        constructor
        · rw [List.getElem?_set_ne (by omega), List.getElem?_append, if_pos hr]
        · intro h
          simp only [Except.ok.injEq] at h
          omega

/-- Witness for C10 on a one-frame heap. -/
theorem c10_witness :
    0 < [(⟨COLUMN_NAMES, exRecsC1, none⟩ : PFrame)].length ∧
    ((calcMAHeap [⟨COLUMN_NAMES, exRecsC1, none⟩] 0 (.int 2)).1[0]?
        = [(⟨COLUMN_NAMES, exRecsC1, none⟩ : PFrame)][0]? ∧
      (calcMAHeap [⟨COLUMN_NAMES, exRecsC1, none⟩] 0 (.int 2)).2 ≠ .ok 0) :=
  ⟨by decide, c10_input_frame_unchanged [⟨COLUMN_NAMES, exRecsC1, none⟩] 0 (.int 2) (by decide)⟩

end NasdaqScript
